import Mathlib

/-!
Shallow embedding of the Recipes API recipe service
(src/recipes/recipes.service.ts) and of the pagination helper
(paginateResults, utils). External collaborators — the document store,
the cache store and the image store — are modelled as explicit state
and as outcome parameters passed to the operations.
-/

namespace Recipes

/-- HTTP status codes used by the service when throwing HttpException. -/
inductive HttpStatus where
  | notFound
  | internalServerError
deriving DecidableEq, Repr

/-- Model of a thrown HttpException(message, status). -/
structure HttpError where
  message : String
  status : HttpStatus
deriving DecidableEq, Repr

/-- Result object returned by paginateResults on success. -/
structure PaginateResult where
  totalItems : Nat
  totalPages : Nat
  currentPage : Int
deriving DecidableEq, Repr

/-- Embedding of Math.ceil(totalItems / limit) on natural numbers, exact for
a positive limit. -/
def ceilPages (totalItems limit : Nat) : Nat := (totalItems + limit - 1) / limit

/-- Embedding of the pagination helper paginateResults(totalItems, page, limit):
computes totalPages, throws a 404 when the page is out of range, and otherwise
returns the triple. The page is an integer (it may be zero or negative). -/
def paginateResults (totalItems : Nat) (page : Int) (limit : Nat) :
    Except HttpError PaginateResult :=
  if page < 1 ∨ page > (ceilPages totalItems limit : Int) then
    .error ⟨"Página no encontrada", .notFound⟩
  else
    .ok ⟨totalItems, ceilPages totalItems limit, page⟩

/-- Category document as stored, including the image asset id that populate
excludes. The category entity file is not among the given sources; its
fields follow the data model of the spec (id, name) plus the public_id
field that the populate projection in recipes.service.ts explicitly
excludes. -/
structure CategoryDoc where
  id : Nat
  name : String
  public_id : String
deriving DecidableEq, Repr

/-- Category as returned by populate with the -public_id projection. -/
structure CategoryView where
  id : Nat
  name : String
deriving DecidableEq, Repr

/-- Recipe document as stored. The entity file is not among the given
sources; the fields are those the service and the DTOs use: name,
description, ingredients, steps, image URL, image asset id (public_id),
category reference, optional country reference, and the createdAt
timestamp used for sorting. -/
structure RecipeDoc where
  id : Nat
  name : String
  description : String
  ingredients : List String
  steps : List String
  image : String
  public_id : String
  category : Nat
  country : Option Nat
  createdAt : Nat
deriving DecidableEq, Repr

/-- Recipe as returned by the select -public_id plus populate projection:
the public_id field is gone and the category reference is replaced by the
joined category view (none when the referenced category does not exist). -/
structure RecipeView where
  id : Nat
  name : String
  description : String
  ingredients : List String
  steps : List String
  image : String
  category : Option CategoryView
  country : Option Nat
  createdAt : Nat
deriving DecidableEq, Repr

/-- Projection applied by populate to the joined category. -/
def projectCategory (c : CategoryDoc) : CategoryView := ⟨c.id, c.name⟩

/-- Projection applied by select -public_id and populate to a recipe. -/
def projectRecipe (cats : List CategoryDoc) (d : RecipeDoc) : RecipeView :=
  { id := d.id, name := d.name, description := d.description,
    ingredients := d.ingredients, steps := d.steps, image := d.image,
    category := (cats.find? fun c => c.id == d.category).map projectCategory,
    country := d.country, createdAt := d.createdAt }

/-- Ordering used by the sort on createdAt descending: newest first. -/
def newerFirst (a b : RecipeDoc) : Prop := b.createdAt ≤ a.createdAt

instance : DecidableRel newerFirst := fun a b => Nat.decLe b.createdAt a.createdAt

instance : IsTotal RecipeDoc newerFirst := ⟨fun a b => Nat.le_total b.createdAt a.createdAt⟩

instance : IsTrans RecipeDoc newerFirst := ⟨fun _ _ _ h1 h2 => Nat.le_trans h2 h1⟩

/-- Model of the store sort on createdAt descending (the store applies the
sort before skip and limit, whatever the chaining order of the query). -/
def sortByCreatedAtDesc (docs : List RecipeDoc) : List RecipeDoc :=
  docs.insertionSort newerFirst

/-- Payload of the recipe listing, cached and returned by findAll. -/
structure PageData where
  page : Int
  totalPages : Nat
  totalRecipes : Nat
  data : List RecipeView
deriving DecidableEq, Repr

/-- Cache store modelled as an association list from keys to payloads. -/
abbrev CacheStore := List (String × PageData)

/-- Lookup in the cache store. -/
def cacheGet (c : CacheStore) (k : String) : Option PageData :=
  (c.find? fun e => e.1 == k).map (·.2)

/-- Insertion in the cache store, overwriting the key. -/
def cacheSet (c : CacheStore) (k : String) (v : PageData) : CacheStore :=
  (k, v) :: c.filter fun e => e.1 != k

/-- Deletion of a key from the cache store. -/
def cacheDel (c : CacheStore) (k : String) : CacheStore :=
  c.filter fun e => e.1 != k

/-- State visible to the service: the recipe documents, the category
documents, the cache store contents, and the private cacheKey slot of the
service instance (the empty string when unset). -/
structure ServiceState where
  docs : List RecipeDoc
  cats : List CategoryDoc
  cache : CacheStore
  cacheKey : String
deriving DecidableEq, Repr

/-- Embedding of generateCacheKey(page, limit). -/
def generateCacheKey (page : Int) (limit : Nat) : String :=
  "recipes_list_page_" ++ toString page ++ "_" ++ toString limit

/-- Embedding of findAll(page, limit). Mirrors the statement order of the
source: the cacheKey slot is set, the cache is read, the documents are
counted, the page is validated (404 on failure), and only then does the
cached payload decide between the query-and-fill path and the hit path. -/
def findAll (st : ServiceState) (page : Int) (limit : Nat) :
    Except HttpError PageData × ServiceState :=
  let key := generateCacheKey page limit
  let st1 : ServiceState := { st with cacheKey := key }
  let cacheData := cacheGet st1.cache key
  let totalRecipes := st1.docs.length
  let totalPages := ceilPages totalRecipes limit
  if page < 1 ∨ page > (totalPages : Int) then
    (.error ⟨"Página no encontrada", .notFound⟩, st1)
  else
    match cacheData with
    | none =>
      let skip := (page - 1).toNat * limit
      let recipes :=
        (((sortByCreatedAtDesc st1.docs).drop skip).take limit).map
          (projectRecipe st1.cats)
      let payload : PageData := ⟨page, totalPages, totalRecipes, recipes⟩
      (.ok payload, { st1 with cache := cacheSet st1.cache key payload })
    | some payload => (.ok payload, st1)

/-- Embedding of findOne(id): findById with the category populated and
public_id excluded; 404 when the recipe does not exist. Reads leave the
state unchanged, so only the result is returned. -/
def findOne (st : ServiceState) (id : Nat) : Except HttpError RecipeView :=
  match st.docs.find? fun d => d.id == id with
  | none => .error ⟨"La receta no existe!", .notFound⟩
  | some d => .ok (projectRecipe st.cats d)

/-- Embedding of getLatestRecipes(limit): find().limit(limit).sort(createdAt
descending) with no populate and no select, so raw documents are returned. -/
def getLatestRecipes (st : ServiceState) (limit : Nat) : List RecipeDoc :=
  (sortByCreatedAtDesc st.docs).take limit

/-- Result of searchByName and getRecipesByCategory: either the list of
matching recipes or an informational message object. -/
inductive QueryResult where
  | found (recipes : List RecipeView)
  | message (msg : String)
deriving DecidableEq, Repr

/-- Containment of one character list in another, used to model the regex
substring match on names. -/
def containsChars (pat : List Char) : List Char → Bool
  | [] => pat.isEmpty
  | c :: rest => pat.isPrefixOf (c :: rest) || containsChars pat rest

/-- Characters of a string folded to lower case. -/
def lowerChars (s : String) : List Char :=
  s.toList.map Char.toLower

/-- Case-insensitive containment of the pattern in the recipe name,
modelling the regex name query with the i option. -/
def matchesName (pat : String) (d : RecipeDoc) : Bool :=
  containsChars (lowerChars pat) (lowerChars d.name)

/-- Embedding of searchByName: filter by the case-insensitive name pattern,
sort newest first, project; when nothing matches, return the informational
message instead of an error. -/
def searchByName (st : ServiceState) (pat : String) : QueryResult :=
  let recipes :=
    (sortByCreatedAtDesc (st.docs.filter (matchesName pat))).map
      (projectRecipe st.cats)
  if recipes.length == 0 then
    .message "No se encontraron recetas con ese nombre."
  else
    .found recipes

/-- Embedding of getRecipesByCategory(categoryId): filter on the category
reference, project, and return the informational message when the category
has no recipes (no sort is applied on this path). -/
def getRecipesByCategory (st : ServiceState) (categoryId : Nat) : QueryResult :=
  let recipes :=
    (st.docs.filter fun d => d.category == categoryId).map (projectRecipe st.cats)
  if recipes.length == 0 then
    .message "No hay recetas en esta categoria"
  else
    .found recipes

/-- Cache invalidation step shared verbatim by create, update and remove:
when this.cacheKey is a nonempty string the tracked key is deleted from the
cache store and the slot is cleared; otherwise nothing happens. -/
def invalidateTracked (st : ServiceState) : ServiceState :=
  if st.cacheKey ≠ "" then
    { st with cache := cacheDel st.cache st.cacheKey, cacheKey := "" }
  else st

/-- Fields of CreateRecipeDto (the dto file is not among the given sources;
the fields are recovered from UpdateRecipeDto, which is its PartialType). -/
structure CreateRecipeDto where
  name : String
  description : String
  ingredients : List String
  steps : List String
  category : Nat
  country : Option Nat
deriving DecidableEq, Repr

/-- Upload response of the image store: secure_url and public_id. -/
structure UploadResp where
  secure_url : String
  public_id : String
deriving DecidableEq, Repr

/-- Response object of create and remove: a message and the recipe name. -/
structure WriteResp where
  message : String
  name : String
deriving DecidableEq, Repr

/-- Embedding of create(createRecipeDto, image). Outcomes of the external
calls are passed as parameters: uploadResult for uploadImage, unlinkResult
for the awaited fse.unlink, and saveOk for the later outcome of the save()
call, which the source does not await — a failed save is therefore
invisible to the try and catch and to the caller. The fresh document id and
timestamp are the newId and now parameters. Inside the try block the cache
invalidation step runs first; an awaited failure is caught and rethrown as
the generic 500 creation error, with the cause only logged. -/
def create (st : ServiceState) (dto : CreateRecipeDto)
    (uploadResult : Except String UploadResp) (unlinkResult : Except String Unit)
    (saveOk : Bool) (newId now : Nat) : Except HttpError WriteResp × ServiceState :=
  let st1 := invalidateTracked st
  match uploadResult with
  | .error _ => (.error ⟨"Error al crear la receta", .internalServerError⟩, st1)
  | .ok resp =>
    match unlinkResult with
    | .error _ => (.error ⟨"Error al crear la receta", .internalServerError⟩, st1)
    | .ok _ =>
      let newDoc : RecipeDoc :=
        { id := newId, name := dto.name, description := dto.description,
          ingredients := dto.ingredients, steps := dto.steps,
          image := resp.secure_url, public_id := resp.public_id,
          category := dto.category, country := dto.country, createdAt := now }
      let st2 := if saveOk then { st1 with docs := st1.docs ++ [newDoc] } else st1
      (.ok ⟨"Receta creada correctamente", dto.name⟩, st2)

/-- Fields of UpdateRecipeDto: the PartialType of CreateRecipeDto plus the
image and public_id fields the service fills in when a new image arrives. -/
structure UpdateRecipeDto where
  name : Option String
  description : Option String
  ingredients : Option (List String)
  steps : Option (List String)
  category : Option Nat
  country : Option Nat
  image : Option String
  public_id : Option String
deriving DecidableEq, Repr

/-- Application of findByIdAndUpdate: every field present in the dto
overwrites the stored field. -/
def applyUpdate (dto : UpdateRecipeDto) (d : RecipeDoc) : RecipeDoc :=
  { d with
    name := dto.name.getD d.name,
    description := dto.description.getD d.description,
    ingredients := dto.ingredients.getD d.ingredients,
    steps := dto.steps.getD d.steps,
    category := dto.category.getD d.category,
    country := (dto.country.map some).getD d.country,
    image := dto.image.getD d.image,
    public_id := dto.public_id.getD d.public_id }

/-- Response object of update: the echoed name is the optional dto name. -/
structure UpdateResp where
  message : String
  name : Option String
deriving DecidableEq, Repr

/-- Embedding of update(id, updateRecipeDto, image): 404 when the id is
absent, then the cache invalidation step, then the optional image
replacement (newImage carries the upload response when a file was sent; the
image-store calls themselves are outside the modelled state), then
findByIdAndUpdate. -/
def update (st : ServiceState) (id : Nat) (dto : UpdateRecipeDto)
    (newImage : Option UploadResp) : Except HttpError UpdateResp × ServiceState :=
  match st.docs.find? fun d => d.id == id with
  | none => (.error ⟨"La receta no existe!", .notFound⟩, st)
  | some _ =>
    let st1 := invalidateTracked st
    let dto1 := match newImage with
      | some up =>
        { dto with image := some up.secure_url, public_id := some up.public_id }
      | none => dto
    let st2 : ServiceState :=
      { st1 with
        docs := st1.docs.map fun d => if d.id == id then applyUpdate dto1 d else d }
    (.ok ⟨"Receta actualizada correctamente", dto1.name⟩, st2)

/-- Embedding of remove(id): 404 when the id is absent, the cache
invalidation step, deleteImage on the stored public_id (image store outside
the modelled state), findByIdAndDelete, and the confirmation carrying the
deleted name. -/
def remove (st : ServiceState) (id : Nat) : Except HttpError WriteResp × ServiceState :=
  match st.docs.find? fun d => d.id == id with
  | none => (.error ⟨"La receta no existe!", .notFound⟩, st)
  | some recipeFound =>
    let st1 := invalidateTracked st
    let st2 : ServiceState := { st1 with docs := st1.docs.filter fun d => d.id != id }
    (.ok ⟨"Receta eliminada correctamente", recipeFound.name⟩, st2)

/-- Renaming of the image asset id of one document as a function of its
document id; every other field is untouched. Used to state that a read
operation does or does not depend on the stored asset ids. -/
def renamePid (f : Nat → String) (d : RecipeDoc) : RecipeDoc :=
  { d with public_id := f d.id }

/-- Renaming of every stored asset id in the service state. -/
def renamePids (f : Nat → String) (st : ServiceState) : ServiceState :=
  { st with docs := st.docs.map (renamePid f) }

/-- Sample category used by the concrete instances below. -/
def exCategory : CategoryDoc := ⟨1, "Postres", "cat_pid"⟩

/-- Sample recipe document used by the concrete instances below. -/
def exRecipe : RecipeDoc :=
  ⟨1, "Arepa", "Arepa de maíz", ["maíz", "sal"], ["mezclar", "asar"],
    "http://img/1", "pid_1", 1, none, 10⟩

/-- Sample listing payload used by the concrete instances below. -/
def exPayload : PageData := ⟨1, 1, 1, []⟩

/-- Sample creation dto used by the concrete instances below. -/
def exDto : CreateRecipeDto :=
  ⟨"Pan", "Pan casero", ["harina"], ["hornear"], 1, none⟩

/-- Second sample recipe document, newer than the first. -/
def exRecipe2 : RecipeDoc :=
  ⟨2, "Bandeja", "Bandeja paisa", ["frijol"], ["cocinar"],
    "http://img/2", "pid_2", 1, some 3, 20⟩

/-- Sample state with two documents, an empty cache and no tracked key. -/
def exState2 : ServiceState := ⟨[exRecipe, exRecipe2], [exCategory], [], ""⟩

/-- Listing payload produced by findAll on the sample two-document state at
page 1 with limit 10: both documents, newest first, projected. -/
def exHitPayload : PageData :=
  ⟨1, 1, 2,
    [⟨2, "Bandeja", "Bandeja paisa", ["frijol"], ["cocinar"], "http://img/2",
        some ⟨1, "Postres"⟩, some 3, 20⟩,
      ⟨1, "Arepa", "Arepa de maíz", ["maíz", "sal"], ["mezclar", "asar"],
        "http://img/1", some ⟨1, "Postres"⟩, none, 10⟩]⟩

/-- Sample empty update dto used by the concrete instances below. -/
def exUpdateDto : UpdateRecipeDto :=
  ⟨none, none, none, none, none, none, none, none⟩

/-- Sample service state with a tracked cache key and two cached pages. -/
def exState : ServiceState :=
  ⟨[exRecipe], [exCategory],
    [(generateCacheKey 1 10, exPayload), (generateCacheKey 2 10, exPayload)],
    generateCacheKey 1 10⟩

/-- Galois characterisation of ceilPages: for a positive limit it is the least
n with totalItems ≤ limit * n. -/
theorem ceilPages_le_iff (t l n : Nat) (hl : 1 ≤ l) :
    ceilPages t l ≤ n ↔ t ≤ l * n := by
  unfold ceilPages
  rw [Nat.div_le_iff_le_mul_add_pred hl]
  omega

/-- The natural-number formula (t + l - 1) / l computes the ceiling of the
rational quotient t / l whenever l is positive. -/
theorem ceilPages_eq_ceil (t l : Nat) (hl : 1 ≤ l) :
    ceilPages t l = ⌈(t : ℚ) / (l : ℚ)⌉₊ := by
  have hl0 : (0 : ℚ) < (l : ℚ) := by exact_mod_cast hl
  apply le_antisymm
  · rw [ceilPages_le_iff t l _ hl]
    have h1 : (t : ℚ) / (l : ℚ) ≤ (⌈(t : ℚ) / (l : ℚ)⌉₊ : ℚ) :=
      Nat.le_ceil _
    rw [div_le_iff₀ hl0] at h1
    have h2 : t ≤ ⌈(t : ℚ) / (l : ℚ)⌉₊ * l := by exact_mod_cast h1
    rw [Nat.mul_comm]
    exact h2
  · rw [Nat.ceil_le, div_le_iff₀ hl0]
    have h1 : t ≤ l * ceilPages t l := (ceilPages_le_iff t l _ hl).mp le_rfl
    exact_mod_cast Nat.le_trans h1 (Nat.le_of_eq (Nat.mul_comm l _))

/-- Empty collection: with a positive limit, zero items give zero pages. -/
theorem ceilPages_zero (l : Nat) (hl : 1 ≤ l) : ceilPages 0 l = 0 := by
  unfold ceilPages
  exact Nat.div_eq_of_lt (by omega)

/-- Claim C1: for every total item count T, requested page P and page size L ≥ 1,
paginateResults computes totalPages as the ceiling of T / L, fails with the
404 page-not-found error exactly when P < 1 or P > totalPages, and otherwise
returns the triple (T, totalPages, P); in particular when T = 0, totalPages
is 0 and every request with P ≥ 1 fails. -/
theorem C1_paginateResults_contract (t : Nat) (p : Int) (l : Nat) (hl : 1 ≤ l) :
    ceilPages t l = ⌈(t : ℚ) / (l : ℚ)⌉₊
    ∧ (paginateResults t p l = .error ⟨"Página no encontrada", .notFound⟩
        ↔ (p < 1 ∨ p > (ceilPages t l : Int)))
    ∧ (¬(p < 1 ∨ p > (ceilPages t l : Int)) →
        paginateResults t p l = .ok ⟨t, ceilPages t l, p⟩)
    ∧ (t = 0 → 1 ≤ p →
        paginateResults t p l = .error ⟨"Página no encontrada", .notFound⟩) := by
  refine ⟨ceilPages_eq_ceil t l hl, ?_⟩
  unfold paginateResults
  by_cases hc : p < 1 ∨ p > (ceilPages t l : Int)
  · rw [if_pos hc]
    exact ⟨by simp [hc], fun h => absurd hc h, fun _ _ => rfl⟩
  · rw [if_neg hc]
    refine ⟨by simp [hc], fun _ => rfl, ?_⟩
    intro ht hp
    subst ht
    rw [ceilPages_zero l hl] at hc
    exact absurd (Or.inr (by exact_mod_cast hp)) hc

/-- Witness for C1 at T = 25, P = 3, L = 10 (the worked example of the spec:
25 items with page size 10 give 3 pages and page 3 succeeds). -/
theorem C1_paginateResults_contract_witness :
    1 ≤ 10 ∧ paginateResults 25 3 10 = .ok ⟨25, 3, 3⟩ :=
  ⟨by decide, (C1_paginateResults_contract 25 3 10 (by decide)).2.2.1 (by decide)⟩

/-- Reading the key just written finds the written payload. -/
theorem cacheGet_cacheSet_self (c : CacheStore) (k : String) (v : PageData) :
    cacheGet (cacheSet c k v) k = some v := by
  simp [cacheGet, cacheSet, List.find?_cons_of_pos]

/-- Deleting a key removes it from the view of the cache. -/
theorem cacheGet_cacheDel_self (c : CacheStore) (k : String) :
    cacheGet (cacheDel c k) k = none := by
  unfold cacheGet cacheDel
  rw [Option.map_eq_none', List.find?_eq_none]
  intro e he
  have h2 := (List.mem_filter.mp he).2
  simp only [bne_iff_ne, ne_eq] at h2
  simp [h2]

/-- Deleting a key leaves the view of every other key unchanged. -/
theorem cacheGet_cacheDel_ne (c : CacheStore) (k k2 : String) (h : k2 ≠ k) :
    cacheGet (cacheDel c k) k2 = cacheGet c k2 := by
  induction c with
  | nil => rfl
  | cons e rest ih =>
    unfold cacheDel cacheGet at ih ⊢
    rw [List.filter_cons]
    by_cases he : e.1 = k
    · rw [if_neg (by simp [he]),
        List.find?_cons_of_neg _ (by simp only [beq_iff_eq, he]; exact fun hh => h hh.symm)]
      exact ih
    · rw [if_pos (by simp [he])]
      by_cases h3 : e.1 = k2
      · rw [List.find?_cons_of_pos _ (by simp [h3]),
          List.find?_cons_of_pos _ (by simp [h3])]
      · rw [List.find?_cons_of_neg _ (by simp [h3]),
          List.find?_cons_of_neg _ (by simp [h3])]
        exact ih

/-- Claim C2: findAll recounts the documents and validates the page before any
result: whenever the page is out of range with respect to the current
document count, the call fails with the 404 page-not-found error, for every
state — in particular also when the cache already holds an entry under the
key derived from (page, limit): a cache hit never bypasses validation. -/
theorem C2_findAll_validates_before_cache (st : ServiceState) (page : Int)
    (limit : Nat)
    (hbad : page < 1 ∨ page > (ceilPages st.docs.length limit : Int)) :
    (findAll st page limit).1 = .error ⟨"Página no encontrada", .notFound⟩ := by
  simp only [findAll]
  rw [if_pos hbad]

/-- Witness for C2: empty collection, page 1 of size 10 requested, while
the cache already holds a payload under exactly that key; the call still
fails with the 404 error. -/
theorem C2_findAll_validates_before_cache_witness :
    ((1 : Int) < 1 ∨ (1 : Int) >
      (ceilPages (ServiceState.docs ⟨[], [], [(generateCacheKey 1 10, ⟨1, 1, 1, []⟩)], ""⟩).length 10 : Int))
    ∧ (findAll ⟨[], [], [(generateCacheKey 1 10, ⟨1, 1, 1, []⟩)], ""⟩ 1 10).1
        = .error ⟨"Página no encontrada", .notFound⟩ :=
  ⟨by decide,
    C2_findAll_validates_before_cache
      ⟨[], [], [(generateCacheKey 1 10, ⟨1, 1, 1, []⟩)], ""⟩ 1 10 (by decide)⟩

/-- Invalidation always leaves the slot empty. -/
theorem invalidateTracked_cacheKey (st : ServiceState) :
    (invalidateTracked st).cacheKey = "" := by
  unfold invalidateTracked
  split <;> simp_all

/-- Invalidation deletes exactly the tracked key, or nothing. -/
theorem invalidateTracked_cache (st : ServiceState) :
    (invalidateTracked st).cache =
      if st.cacheKey ≠ "" then cacheDel st.cache st.cacheKey else st.cache := by
  unfold invalidateTracked
  split <;> rfl

/-- Invalidation does not touch the documents. -/
theorem invalidateTracked_docs (st : ServiceState) :
    (invalidateTracked st).docs = st.docs := by
  unfold invalidateTracked
  split <;> rfl

/-- Cache contents after create come from the invalidation step alone, and
the slot ends empty, on every path of create. -/
theorem create_cache_effect (st : ServiceState) (dto : CreateRecipeDto)
    (up : Except String UploadResp) (ul : Except String Unit) (sv : Bool)
    (nid now : Nat) :
    (create st dto up ul sv nid now).2.cache = (invalidateTracked st).cache
    ∧ (create st dto up ul sv nid now).2.cacheKey = "" := by
  have hk := invalidateTracked_cacheKey st
  unfold create
  cases up with
  | error e => exact ⟨rfl, hk⟩
  | ok r =>
    cases ul with
    | error e => exact ⟨rfl, hk⟩
    | ok u => cases sv <;> simp_all

/-- Cache contents after update: the invalidation step alone when the id
exists, nothing at all when update fails with 404. -/
theorem update_cache_effect (st : ServiceState) (uid : Nat)
    (udto : UpdateRecipeDto) (uimg : Option UploadResp) :
    ((st.docs.find? fun d => d.id == uid).isSome →
      (update st uid udto uimg).2.cache = (invalidateTracked st).cache
      ∧ (update st uid udto uimg).2.cacheKey = "")
    ∧ ((st.docs.find? fun d => d.id == uid) = none →
      (update st uid udto uimg).2 = st) := by
  have hk := invalidateTracked_cacheKey st
  unfold update
  cases hf : st.docs.find? fun d => d.id == uid with
  | none => simp
  | some d => cases uimg <;> simp_all

/-- Cache contents after remove: the invalidation step alone when the id
exists, nothing at all when remove fails with 404. -/
theorem remove_cache_effect (st : ServiceState) (rid : Nat) :
    ((st.docs.find? fun d => d.id == rid).isSome →
      (remove st rid).2.cache = (invalidateTracked st).cache
      ∧ (remove st rid).2.cacheKey = "")
    ∧ ((st.docs.find? fun d => d.id == rid) = none →
      (remove st rid).2 = st) := by
  have hk := invalidateTracked_cacheKey st
  unfold remove
  cases hf : st.docs.find? fun d => d.id == rid with
  | none => simp
  | some d => simp_all

/-- View of the cache after the invalidation step: unchanged on every key
other than the tracked one, and empty on the tracked key when one is
tracked. -/
theorem invalidateTracked_view (st : ServiceState) :
    (∀ k, k ≠ st.cacheKey →
      cacheGet (invalidateTracked st).cache k = cacheGet st.cache k)
    ∧ (st.cacheKey ≠ "" →
      cacheGet (invalidateTracked st).cache st.cacheKey = none) := by
  rw [invalidateTracked_cache]
  constructor
  · intro k hk
    split
    · exact cacheGet_cacheDel_ne _ _ _ hk
    · rfl
  · intro hne
    rw [if_pos hne]
    exact cacheGet_cacheDel_self _ _

/-- Claim C3: single-slot invalidation. Every write (create, update, remove)
leaves the cache view of every key other than the tracked cacheKey exactly
as it was — stale pages persist — and, when a key is tracked and the write
reaches its invalidation step, the entry under that one key is deleted;
when no key is tracked the cache store is completely untouched. -/
theorem C3_writes_single_slot (st : ServiceState) (dto : CreateRecipeDto)
    (up : Except String UploadResp) (ul : Except String Unit) (sv : Bool)
    (nid now uid rid : Nat) (udto : UpdateRecipeDto)
    (uimg : Option UploadResp) :
    (∀ k, k ≠ st.cacheKey →
      cacheGet (create st dto up ul sv nid now).2.cache k = cacheGet st.cache k
      ∧ cacheGet (update st uid udto uimg).2.cache k = cacheGet st.cache k
      ∧ cacheGet (remove st rid).2.cache k = cacheGet st.cache k)
    ∧ (st.cacheKey ≠ "" →
      cacheGet (create st dto up ul sv nid now).2.cache st.cacheKey = none
      ∧ ((st.docs.find? fun d => d.id == uid).isSome →
        cacheGet (update st uid udto uimg).2.cache st.cacheKey = none)
      ∧ ((st.docs.find? fun d => d.id == rid).isSome →
        cacheGet (remove st rid).2.cache st.cacheKey = none))
    ∧ (st.cacheKey = "" →
      (create st dto up ul sv nid now).2.cache = st.cache
      ∧ (update st uid udto uimg).2.cache = st.cache
      ∧ (remove st rid).2.cache = st.cache) := by
  have hc := create_cache_effect st dto up ul sv nid now
  have hu := update_cache_effect st uid udto uimg
  have hr := remove_cache_effect st rid
  have hv := invalidateTracked_view st
  have hnoop : st.cacheKey = "" → (invalidateTracked st).cache = st.cache := by
    intro hz
    rw [invalidateTracked_cache, if_neg (by simp [hz])]
  refine ⟨?_, ?_, ?_⟩
  · intro k hk
    refine ⟨?_, ?_, ?_⟩
    · rw [hc.1]; exact hv.1 k hk
    · cases hf : st.docs.find? fun d => d.id == uid with
      | none => rw [(hu.2 hf : _)]
      | some d =>
        rw [(hu.1 (by simp [hf])).1]
        exact hv.1 k hk
    · cases hf : st.docs.find? fun d => d.id == rid with
      | none => rw [(hr.2 hf : _)]
      | some d =>
        rw [(hr.1 (by simp [hf])).1]
        exact hv.1 k hk
  · intro hne
    refine ⟨?_, ?_, ?_⟩
    · rw [hc.1]; exact hv.2 hne
    · intro hs; rw [(hu.1 hs).1]; exact hv.2 hne
    · intro hs; rw [(hr.1 hs).1]; exact hv.2 hne
  · intro hz
    refine ⟨?_, ?_, ?_⟩
    · rw [hc.1, hnoop hz]
    · cases hf : st.docs.find? fun d => d.id == uid with
      | none => rw [(hu.2 hf : _)]
      | some d => rw [(hu.1 (by simp [hf])).1, hnoop hz]
    · cases hf : st.docs.find? fun d => d.id == rid with
      | none => rw [(hr.2 hf : _)]
      | some d => rw [(hr.1 (by simp [hf])).1, hnoop hz]

/-- Witness for C3 on the sample state, which tracks the key of page 1 and
caches pages 1 and 2: create deletes the tracked page 1 entry and leaves
the page 2 entry readable. -/
theorem C3_writes_single_slot_witness :
    (generateCacheKey 2 10 ≠ exState.cacheKey ∧ exState.cacheKey ≠ "") ∧
    cacheGet (create exState exDto (.ok ⟨"http://img/2", "pid_2"⟩) (.ok ()) true 2 20).2.cache
        (generateCacheKey 2 10)
      = cacheGet exState.cache (generateCacheKey 2 10) ∧
    cacheGet (create exState exDto (.ok ⟨"http://img/2", "pid_2"⟩) (.ok ()) true 2 20).2.cache
        exState.cacheKey
      = none :=
  ⟨⟨by decide, by decide⟩,
    ((C3_writes_single_slot exState exDto (.ok ⟨"http://img/2", "pid_2"⟩)
        (.ok ()) true 2 20 1 1 exUpdateDto none).1
      (generateCacheKey 2 10) (by decide)).1,
    ((C3_writes_single_slot exState exDto (.ok ⟨"http://img/2", "pid_2"⟩)
        (.ok ()) true 2 20 1 1 exUpdateDto none).2.1 (by decide)).1⟩

/-- Claim C4: on a cache miss with a valid page, findAll returns the payload whose
data is the projection (category joined, public_id excluded) of the slice of
the documents sorted newest first starting at index (page-1)*limit and of
length at most limit, stores exactly that payload in the cache under the key
derived from (page, limit), and the stored and returned payloads are one and
the same; the sort is a permutation of the store ordered by descending
createdAt. -/
theorem C4_findAll_cache_miss (st : ServiceState) (page : Int) (limit : Nat)
    (hmiss : cacheGet st.cache (generateCacheKey page limit) = none)
    (hok : ¬(page < 1 ∨ page > (ceilPages st.docs.length limit : Int))) :
    ∃ payload : PageData,
      (findAll st page limit).1 = .ok payload
      ∧ cacheGet (findAll st page limit).2.cache (generateCacheKey page limit)
          = some payload
      ∧ payload.page = page
      ∧ payload.totalPages = ceilPages st.docs.length limit
      ∧ payload.totalRecipes = st.docs.length
      ∧ (∀ i, i < limit →
          payload.data[i]? =
            ((sortByCreatedAtDesc st.docs)[(page - 1).toNat * limit + i]?).map
              (projectRecipe st.cats))
      ∧ payload.data.length
          = min limit (st.docs.length - (page - 1).toNat * limit)
      ∧ List.Sorted newerFirst (sortByCreatedAtDesc st.docs)
      ∧ (sortByCreatedAtDesc st.docs).Perm st.docs := by
  refine ⟨⟨page, ceilPages st.docs.length limit, st.docs.length,
    (((sortByCreatedAtDesc st.docs).drop ((page - 1).toNat * limit)).take
      limit).map (projectRecipe st.cats)⟩, ?_, ?_, rfl, rfl, rfl, ?_, ?_, ?_, ?_⟩
  · simp only [findAll]
    rw [if_neg hok]
    simp only [hmiss]
  · simp only [findAll]
    rw [if_neg hok]
    simp only [hmiss]
    exact cacheGet_cacheSet_self _ _ _
  · intro i hi
    simp only [List.getElem?_map, List.getElem?_take_of_lt hi,
      List.getElem?_drop]
  · simp only [List.length_map, List.length_take, List.length_drop,
      sortByCreatedAtDesc, List.length_insertionSort]
  · exact List.sorted_insertionSort newerFirst st.docs
  · exact List.perm_insertionSort newerFirst st.docs

/-- Witness for C4: two stored recipes, empty cache, page 1 of size 10. -/
theorem C4_findAll_cache_miss_witness :
    cacheGet exState2.cache (generateCacheKey 1 10) = none
    ∧ ¬((1 : Int) < 1 ∨ (1 : Int) > (ceilPages exState2.docs.length 10 : Int))
    ∧ ∃ payload : PageData,
        (findAll exState2 1 10).1 = .ok payload
        ∧ cacheGet (findAll exState2 1 10).2.cache (generateCacheKey 1 10)
            = some payload
        ∧ payload.page = 1
        ∧ payload.totalPages = ceilPages exState2.docs.length 10
        ∧ payload.totalRecipes = exState2.docs.length
        ∧ (∀ i, i < 10 →
            payload.data[i]? =
              ((sortByCreatedAtDesc exState2.docs)[((1 : Int) - 1).toNat * 10 + i]?).map
                (projectRecipe exState2.cats))
        ∧ payload.data.length
            = min 10 (exState2.docs.length - ((1 : Int) - 1).toNat * 10)
        ∧ List.Sorted newerFirst (sortByCreatedAtDesc exState2.docs)
        ∧ (sortByCreatedAtDesc exState2.docs).Perm exState2.docs :=
  ⟨by decide, by decide, C4_findAll_cache_miss exState2 1 10 (by decide) (by decide)⟩

/-- Every successful findAll call leaves its own payload in the cache under
the key derived from its arguments (on a miss it has just stored it, on a
hit it was already there). -/
theorem findAll_ok_cached (st : ServiceState) (page : Int) (limit : Nat)
    (r : PageData) (h : (findAll st page limit).1 = .ok r) :
    cacheGet (findAll st page limit).2.cache (generateCacheKey page limit)
      = some r := by
  simp only [findAll] at *
  by_cases hok : page < 1 ∨ page > (ceilPages st.docs.length limit : Int)
  · rw [if_pos hok] at h
    exact absurd h (by simp)
  · rw [if_neg hok] at h ⊢
    cases hmiss : cacheGet st.cache (generateCacheKey page limit) with
    | none =>
      simp only [hmiss] at h ⊢
      rw [cacheGet_cacheSet_self]
      simpa using h
    | some v =>
      simp only [hmiss] at h ⊢
      simpa using h

/-- Claim C5: a cache hit returns the cached payload as it is — no staleness
check — and therefore two successive findAll calls with the same arguments
and no intervening write return the identical payload, even when the
documents changed in between, provided the page stays valid for the new
document count. -/
theorem C5_findAll_hit_stable (st : ServiceState) (page : Int) (limit : Nat)
    (r : PageData) (docs2 : List RecipeDoc)
    (h1 : (findAll st page limit).1 = .ok r)
    (h2 : ¬(page < 1 ∨ page > (ceilPages docs2.length limit : Int))) :
    (findAll { (findAll st page limit).2 with docs := docs2 } page limit).1
      = .ok r
    ∧ ∀ st3 : ServiceState,
        cacheGet st3.cache (generateCacheKey page limit) = some r →
        ¬(page < 1 ∨ page > (ceilPages st3.docs.length limit : Int)) →
        (findAll st3 page limit).1 = .ok r := by
  have hit : ∀ st3 : ServiceState,
      cacheGet st3.cache (generateCacheKey page limit) = some r →
      ¬(page < 1 ∨ page > (ceilPages st3.docs.length limit : Int)) →
      (findAll st3 page limit).1 = .ok r := by
    intro st3 hc hv
    simp only [findAll]
    rw [if_neg hv]
    simp only [hc]
  refine ⟨?_, hit⟩
  apply hit
  · simpa using findAll_ok_cached st page limit r h1
  · simpa using h2

/-- Witness for C5: the first call on the sample two-document state fills
the cache; after one document disappears from the store the repeated call
still answers with the original two-document payload. -/
theorem C5_findAll_hit_stable_witness :
    (findAll exState2 1 10).1 = .ok exHitPayload
    ∧ ¬((1 : Int) < 1 ∨ (1 : Int) > (ceilPages [exRecipe].length 10 : Int))
    ∧ (findAll { (findAll exState2 1 10).2 with docs := [exRecipe] } 1 10).1
        = .ok exHitPayload :=
  ⟨by rfl, by decide,
    (C5_findAll_hit_stable exState2 1 10 exHitPayload [exRecipe]
      (by rfl) (by decide)).1⟩

/-- Claim C6: the source does not await the newRecipe.save() call, so a failed
persistence escapes the try and catch instead of being wrapped: on the
sample state, create with a successful upload whose save later fails
returns the plain success message — not the generic creation failure the
claim requires — and the recipe is silently missing from the store. The
upload half of the claim does hold: a failed upload yields the generic 500
error for every cause, with the cause absent from the response. -/
theorem C6_create_save_failure_not_caught :
    (create exState2 exDto (.ok ⟨"http://img/3", "pid_3"⟩) (.ok ()) false 3 30).1
        = .ok ⟨"Receta creada correctamente", "Pan"⟩
    ∧ (create exState2 exDto (.ok ⟨"http://img/3", "pid_3"⟩) (.ok ()) false 3 30).2.docs
        = exState2.docs
    ∧ ∀ cause : String,
        (create exState2 exDto (.error cause) (.ok ()) true 3 30).1
          = .error ⟨"Error al crear la receta", .internalServerError⟩ :=
  ⟨rfl, rfl, fun _ => rfl⟩

/-- Claim C7: asymmetric empty-result handling: findOne on an absent id fails
with the 404 error, while searchByName with no matching name and
getRecipesByCategory with no recipe in the category both return an
informational message object as a successful result, not an error. -/
theorem C7_asymmetric_empty_results (st : ServiceState) (id catId : Nat)
    (pat : String)
    (h1 : (st.docs.find? fun d => d.id == id) = none)
    (h2 : st.docs.filter (matchesName pat) = [])
    (h3 : (st.docs.filter fun d => d.category == catId) = []) :
    findOne st id = .error ⟨"La receta no existe!", .notFound⟩
    ∧ searchByName st pat
        = .message "No se encontraron recetas con ese nombre."
    ∧ getRecipesByCategory st catId
        = .message "No hay recetas en esta categoria" := by
  refine ⟨?_, ?_, ?_⟩
  · unfold findOne
    rw [h1]
  · unfold searchByName
    rw [h2]
    rfl
  · unfold getRecipesByCategory
    rw [h3]
    rfl

/-- Witness for C7 on a one-recipe store: id 2 is absent, the pattern xyz
matches nothing, and category 99 holds no recipe. -/
theorem C7_asymmetric_empty_results_witness :
    ((([exRecipe] : List RecipeDoc).find? fun d => d.id == 2) = none
      ∧ ([exRecipe] : List RecipeDoc).filter (matchesName "xyz") = []
      ∧ (([exRecipe] : List RecipeDoc).filter fun d => d.category == 99) = [])
    ∧ findOne ⟨[exRecipe], [exCategory], [], ""⟩ 2
        = .error ⟨"La receta no existe!", .notFound⟩
    ∧ searchByName ⟨[exRecipe], [exCategory], [], ""⟩ "xyz"
        = .message "No se encontraron recetas con ese nombre."
    ∧ getRecipesByCategory ⟨[exRecipe], [exCategory], [], ""⟩ 99
        = .message "No hay recetas en esta categoria" := by
  refine ⟨⟨by decide, by decide, by decide⟩, ?_⟩
  exact C7_asymmetric_empty_results ⟨[exRecipe], [exCategory], [], ""⟩ 2 99 "xyz"
    (by decide) (by decide) (by decide)

/-- Second writes after an empty slot do not touch the cache: create. -/
theorem create_cache_noop (st : ServiceState) (dto : CreateRecipeDto)
    (up : Except String UploadResp) (ul : Except String Unit) (sv : Bool)
    (nid now : Nat) (hz : st.cacheKey = "") :
    (create st dto up ul sv nid now).2.cache = st.cache := by
  rw [(create_cache_effect st dto up ul sv nid now).1,
    invalidateTracked_cache, if_neg (by simp [hz])]

/-- Second writes after an empty slot do not touch the cache: update. -/
theorem update_cache_noop (st : ServiceState) (uid : Nat)
    (udto : UpdateRecipeDto) (uimg : Option UploadResp)
    (hz : st.cacheKey = "") :
    (update st uid udto uimg).2.cache = st.cache := by
  have hu := update_cache_effect st uid udto uimg
  cases hf : st.docs.find? fun d => d.id == uid with
  | none => rw [(hu.2 hf : _)]
  | some d =>
    rw [(hu.1 (by simp [hf])).1, invalidateTracked_cache,
      if_neg (by simp [hz])]

/-- Second writes after an empty slot do not touch the cache: remove. -/
theorem remove_cache_noop (st : ServiceState) (rid : Nat)
    (hz : st.cacheKey = "") :
    (remove st rid).2.cache = st.cache := by
  have hr := remove_cache_effect st rid
  cases hf : st.docs.find? fun d => d.id == rid with
  | none => rw [(hr.2 hf : _)]
  | some d =>
    rw [(hr.1 (by simp [hf])).1, invalidateTracked_cache,
      if_neg (by simp [hz])]

/-- Claim C8: every write that reaches its cache-invalidation step — create
always, update and remove when the id exists — leaves the tracked slot
empty; a write starting from an empty slot deletes no cache entry, and in
particular a remove immediately following a create leaves the cache exactly
as the create left it: the single-slot invalidation fires at most once. -/
theorem C8_slot_reset_once (st : ServiceState) (dto : CreateRecipeDto)
    (up : Except String UploadResp) (ul : Except String Unit) (sv : Bool)
    (nid now uid rid : Nat) (udto : UpdateRecipeDto)
    (uimg : Option UploadResp) :
    ((create st dto up ul sv nid now).2.cacheKey = ""
      ∧ ((st.docs.find? fun d => d.id == uid).isSome →
          (update st uid udto uimg).2.cacheKey = "")
      ∧ ((st.docs.find? fun d => d.id == rid).isSome →
          (remove st rid).2.cacheKey = ""))
    ∧ (st.cacheKey = "" →
        (create st dto up ul sv nid now).2.cache = st.cache
        ∧ (update st uid udto uimg).2.cache = st.cache
        ∧ (remove st rid).2.cache = st.cache)
    ∧ (remove (create st dto up ul sv nid now).2 rid).2.cache
        = (create st dto up ul sv nid now).2.cache := by
  refine ⟨⟨(create_cache_effect st dto up ul sv nid now).2,
    fun hs => ((update_cache_effect st uid udto uimg).1 hs).2,
    fun hs => ((remove_cache_effect st rid).1 hs).2⟩, ?_, ?_⟩
  · intro hz
    exact ⟨create_cache_noop st dto up ul sv nid now hz,
      update_cache_noop st uid udto uimg hz,
      remove_cache_noop st rid hz⟩
  · exact remove_cache_noop _ rid (create_cache_effect st dto up ul sv nid now).2

/-- Witness for C8 on the sample tracked state: after a create, the slot is
empty and a subsequent remove leaves the cache as the create left it. -/
theorem C8_slot_reset_once_witness :
    (exState.docs.find? fun d => d.id == 1).isSome = true
    ∧ (create exState exDto (.ok ⟨"http://img/9", "pid_9"⟩) (.ok ()) true 9 90).2.cacheKey = ""
    ∧ (remove exState 1).2.cacheKey = ""
    ∧ (remove (create exState exDto (.ok ⟨"http://img/9", "pid_9"⟩) (.ok ()) true 9 90).2 1).2.cache
        = (create exState exDto (.ok ⟨"http://img/9", "pid_9"⟩) (.ok ()) true 9 90).2.cache := by
  have h := C8_slot_reset_once exState exDto (.ok ⟨"http://img/9", "pid_9"⟩)
    (.ok ()) true 9 90 1 1 exUpdateDto none
  exact ⟨by decide, h.1.1, h.1.2.2 (by decide), h.2.2⟩

/-- Claim C9: create is not atomic on error: when a key is tracked and the image
upload fails, the caller receives the generic creation failure, yet the
tracked cache entry has already been deleted and the slot cleared, and
neither is restored; the document store is untouched. -/
theorem C9_create_invalidates_before_failure (st : ServiceState)
    (dto : CreateRecipeDto) (cause : String) (ul : Except String Unit)
    (sv : Bool) (nid now : Nat) (hk : st.cacheKey ≠ "") :
    (create st dto (.error cause) ul sv nid now).1
        = .error ⟨"Error al crear la receta", .internalServerError⟩
    ∧ (create st dto (.error cause) ul sv nid now).2.cache
        = cacheDel st.cache st.cacheKey
    ∧ (create st dto (.error cause) ul sv nid now).2.cacheKey = ""
    ∧ (create st dto (.error cause) ul sv nid now).2.docs = st.docs := by
  have h1 := invalidateTracked_cache st
  rw [if_pos hk] at h1
  exact ⟨rfl, h1, invalidateTracked_cacheKey st, invalidateTracked_docs st⟩

/-- Witness for C9 on the sample tracked state: the failed create reports
the generic error while the tracked page 1 entry is already gone. -/
theorem C9_create_invalidates_before_failure_witness :
    exState.cacheKey ≠ ""
    ∧ (create exState exDto (.error "upload down") (.ok ()) true 9 90).1
        = .error ⟨"Error al crear la receta", .internalServerError⟩
    ∧ (create exState exDto (.error "upload down") (.ok ()) true 9 90).2.cache
        = cacheDel exState.cache exState.cacheKey
    ∧ (create exState exDto (.error "upload down") (.ok ()) true 9 90).2.cacheKey = ""
    ∧ (create exState exDto (.error "upload down") (.ok ()) true 9 90).2.docs
        = exState.docs :=
  ⟨by decide,
    C9_create_invalidates_before_failure exState exDto "upload down" (.ok ())
      true 9 90 (by decide)⟩

/-- Ordered insertion commutes with the asset-id renaming, which preserves
createdAt. -/
theorem orderedInsert_renamePid (f : Nat → String) (a : RecipeDoc)
    (l : List RecipeDoc) :
    (l.map (renamePid f)).orderedInsert newerFirst (renamePid f a)
      = (l.orderedInsert newerFirst a).map (renamePid f) := by
  induction l with
  | nil => rfl
  | cons b t ih =>
    simp only [List.map_cons, List.orderedInsert]
    by_cases h : newerFirst a b
    · rw [if_pos (show newerFirst (renamePid f a) (renamePid f b) from h),
        if_pos h]
      simp [List.map_cons]
    · rw [if_neg (show ¬newerFirst (renamePid f a) (renamePid f b) from h),
        if_neg h]
      simp only [List.map_cons]
      rw [ih]

/-- Sorting commutes with the asset-id renaming. -/
theorem sort_renamePid (f : Nat → String) (l : List RecipeDoc) :
    sortByCreatedAtDesc (l.map (renamePid f))
      = (sortByCreatedAtDesc l).map (renamePid f) := by
  unfold sortByCreatedAtDesc
  induction l with
  | nil => rfl
  | cons b t ih =>
    simp only [List.map_cons, List.insertionSort]
    rw [ih]
    exact orderedInsert_renamePid f b (t.insertionSort newerFirst)

/-- The projection ignores the renamed asset ids. -/
theorem map_project_renamePid (cats : List CategoryDoc) (f : Nat → String)
    (l : List RecipeDoc) :
    (l.map (renamePid f)).map (projectRecipe cats)
      = l.map (projectRecipe cats) := by
  rw [List.map_map]
  rfl

/-- The listing result does not depend on the stored asset ids. -/
theorem findAll_renamePids (st : ServiceState) (f : Nat → String)
    (page : Int) (limit : Nat) :
    (findAll (renamePids f st) page limit).1 = (findAll st page limit).1 := by
  simp only [findAll, renamePids]
  rw [List.length_map]
  by_cases hok : page < 1 ∨ page > (ceilPages st.docs.length limit : Int)
  · rw [if_pos hok, if_pos hok]
  · rw [if_neg hok, if_neg hok]
    cases hmiss : cacheGet st.cache (generateCacheKey page limit) with
    | none =>
      simp only [hmiss]
      rw [sort_renamePid, ← List.map_drop, ← List.map_take,
        map_project_renamePid]
    | some v => simp only [hmiss]

/-- The id predicate is blind to the renaming. -/
theorem comp_idPred_renamePid (f : Nat → String) (id : Nat) :
    ((fun d : RecipeDoc => d.id == id) ∘ renamePid f)
      = fun d : RecipeDoc => d.id == id :=
  funext fun _ => rfl

/-- The name predicate is blind to the renaming. -/
theorem comp_matchesName_renamePid (f : Nat → String) (pat : String) :
    (matchesName pat ∘ renamePid f) = matchesName pat :=
  funext fun _ => rfl

/-- The category predicate is blind to the renaming. -/
theorem comp_catPred_renamePid (f : Nat → String) (catId : Nat) :
    ((fun d : RecipeDoc => d.category == catId) ∘ renamePid f)
      = fun d : RecipeDoc => d.category == catId :=
  funext fun _ => rfl

/-- The single lookup does not depend on the stored asset ids. -/
theorem findOne_renamePids (st : ServiceState) (f : Nat → String) (id : Nat) :
    findOne (renamePids f st) id = findOne st id := by
  simp only [findOne, renamePids]
  rw [List.find?_map, comp_idPred_renamePid]
  cases hf : st.docs.find? fun d => d.id == id with
  | none => simp [hf]
  | some d =>
    simp only [hf, Option.map_some]
    rfl

/-- The name search does not depend on the stored asset ids. -/
theorem searchByName_renamePids (st : ServiceState) (f : Nat → String)
    (pat : String) :
    searchByName (renamePids f st) pat = searchByName st pat := by
  simp only [searchByName, renamePids]
  rw [List.filter_map, comp_matchesName_renamePid, sort_renamePid,
    map_project_renamePid]

/-- The category filter does not depend on the stored asset ids. -/
theorem getRecipesByCategory_renamePids (st : ServiceState)
    (f : Nat → String) (catId : Nat) :
    getRecipesByCategory (renamePids f st) catId
      = getRecipesByCategory st catId := by
  simp only [getRecipesByCategory, renamePids]
  rw [List.filter_map, comp_catPred_renamePid, map_project_renamePid]

/-- Claim C10: getLatestRecipes returns the raw stored documents — sorted newest
first and truncated, with no projection: the public_id field is present
(after any renaming of the stored asset ids every returned record carries
the renamed id) and the category reference is not joined. The four other
reads — findAll, findOne, searchByName and getRecipesByCategory — are
invariant under any renaming of the asset ids, because their projection
excludes public_id from the recipe and from the joined category. -/
theorem C10_getLatest_exposes_public_id (st : ServiceState) (limit : Nat)
    (f : Nat → String) (page : Int) (plimit id catId : Nat) (pat : String) :
    getLatestRecipes st limit = (sortByCreatedAtDesc st.docs).take limit
    ∧ (∀ r ∈ getLatestRecipes (renamePids f st) limit, r.public_id = f r.id)
    ∧ (∀ cats d, projectRecipe cats (renamePid f d) = projectRecipe cats d)
    ∧ (findAll (renamePids f st) page plimit).1 = (findAll st page plimit).1
    ∧ findOne (renamePids f st) id = findOne st id
    ∧ searchByName (renamePids f st) pat = searchByName st pat
    ∧ getRecipesByCategory (renamePids f st) catId
        = getRecipesByCategory st catId := by
  refine ⟨rfl, ?_, fun cats d => rfl, findAll_renamePids st f page plimit,
    findOne_renamePids st f id, searchByName_renamePids st f pat,
    getRecipesByCategory_renamePids st f catId⟩
  intro r hr
  have h1 : r ∈ sortByCreatedAtDesc ((renamePids f st).docs) :=
    List.mem_of_mem_take hr
  have h2 : r ∈ (renamePids f st).docs :=
    (List.perm_insertionSort newerFirst _).mem_iff.mp h1
  obtain ⟨d, hd, rfl⟩ := List.mem_map.mp h2
  rfl

/-- Witness for C10 on the sample two-document state with asset ids renamed
to ID-prefixed document ids: the newest returned record of getLatestRecipes
carries the renamed asset id, while findOne answers identically before and
after the renaming. -/
theorem C10_getLatest_exposes_public_id_witness :
    renamePid (fun i => "ID" ++ toString i) exRecipe2
        ∈ getLatestRecipes (renamePids (fun i => "ID" ++ toString i) exState2) 10
    ∧ (renamePid (fun i => "ID" ++ toString i) exRecipe2).public_id
        = "ID" ++ toString (renamePid (fun i => "ID" ++ toString i) exRecipe2).id
    ∧ findOne (renamePids (fun i => "ID" ++ toString i) exState2) 1
        = findOne exState2 1 := by
  have h := C10_getLatest_exposes_public_id exState2 10
    (fun i => "ID" ++ toString i) 1 10 1 1 "x"
  exact ⟨by decide,
    h.2.1 (renamePid (fun i => "ID" ++ toString i) exRecipe2) (by decide),
    h.2.2.2.2.1⟩

end Recipes
